import Mathlib

/-!
Verification of the PCF8575 I/O-expander driver (package pcf8575).

The driver is embedded shallowly: the handle `Dev` carries the two latch
bytes as naturals (< 256, as Go `byte`), the I²C connection is abstracted
as a `Bus` giving the outcome of each transaction, and every method
returns its result together with the resulting handle state and the list
of bus transactions it issued, in order.
-/

set_option maxRecDepth 8192

instance {ε α : Type} [DecidableEq ε] [DecidableEq α] : DecidableEq (Except ε α) := by
  intro a b
  cases a <;> cases b
  case error.error e f =>
    exact match decEq e f with
    | isTrue h => isTrue (by rw [h])
    | isFalse h => isFalse (fun hh => h (by injection hh))
  case ok.ok x y =>
    exact match decEq x y with
    | isTrue h => isTrue (by rw [h])
    | isFalse h => isFalse (fun hh => h (by injection hh))
  case error.ok e x => exact isFalse (fun hh => Except.noConfusion hh)
  case ok.error x e => exact isFalse (fun hh => Except.noConfusion hh)

namespace Pcf8575

/-- A bus transaction, as issued through `conn.Conn.Tx`: either a write of
a concrete payload (no bytes read back) or a read of two bytes (no bytes
written). -/
inductive Tx where
  | write (payload : List Nat)
  | read
deriving DecidableEq

/-- The behaviour of the underlying I²C connection for the duration of one
method call: what a write transaction of a given payload returns (`none` =
success, `some msg` = bus error), and what a two-byte read transaction
yields (the two bytes read, or a bus error). -/
structure Bus where
  writeResult : List Nat → Option String
  readResult : Except String (Nat × Nat)

/-- Go `type Dev struct`: the two latch bytes shadowing pins P00-P07 and
P10-P17. The `conn.Conn` field is passed separately as a `Bus`. -/
structure Dev where
  lowPins : Nat
  highPins : Nat
deriving DecidableEq

/-- Errors returned by the driver: a pin-index range error (tagged with the
method that raised it and the offending index, as in the Go error strings)
or an error propagated from the bus. -/
inductive DevError where
  | rangeError (method : String) (index : Int)
  | busError (msg : String)
deriving DecidableEq

/-- Go `getMask`: `1 << byte(index)` — the `int` index is truncated to a
byte (two's complement, i.e. `emod 256`) and the shift result is itself a
byte. -/
def getMask (index : Int) : Nat :=
  (1 <<< (index.emod 256).toNat) % 256

/-- Go `setBit`: set or clear one bit of a byte; `^getMask(index)` is the
byte-wide complement `0xFF ^ mask`. -/
def setBit (value : Nat) (index : Int) (state : Bool) : Nat :=
  if state then
    value ||| getMask index
  else
    value &&& (255 ^^^ getMask index)

/-- Go `getBit`: `value & getMask(index) > 0`. -/
def getBit (value : Nat) (index : Int) : Bool :=
  value &&& getMask index > 0

/-- Go `(d *Dev) updateState()`: one write transaction with payload
`[d.lowPins, d.highPins]`; returns the transaction's error, if any. -/
def updateState (d : Dev) (bus : Bus) : Option String × List Tx :=
  (bus.writeResult [d.lowPins, d.highPins], [Tx.write [d.lowPins, d.highPins]])

/-- Go `(d *Dev) readState()`: one read transaction of two bytes. -/
def readState (bus : Bus) : Except String (Nat × Nat) × List Tx :=
  (bus.readResult, [Tx.read])

/-- The tail of Go `WriteOutput` (and body of the call in `New`): after the
latch bytes have been assigned, `return d.updateState()`. -/
def writeCommit (d : Dev) (bus : Bus) : Except DevError Unit × Dev × List Tx :=
  match updateState d bus with
  | (some e, txs) => (Except.error (DevError.busError e), d, txs)
  | (none, txs) => (Except.ok (), d, txs)

/-- Go `New`: build the handle with both latches `0xff` and immediately
push that state to the device; on bus failure return the error and no
handle. -/
def New (bus : Bus) : Except DevError Dev × List Tx :=
  match updateState { lowPins := 0xff, highPins := 0xff } bus with
  | (some e, txs) => (Except.error (DevError.busError e), txs)
  | (none, txs) => (Except.ok { lowPins := 0xff, highPins := 0xff }, txs)

/-- Go `(d *Dev) WriteOutput(index int, state bool) error`: range-check the
index, mutate the corresponding latch bit in memory, then write both latch
bytes to the device; out-of-range indices return early with no
transaction. -/
def WriteOutput (d : Dev) (index : Int) (state : Bool) (bus : Bus) :
    Except DevError Unit × Dev × List Tx :=
  if 0 ≤ index ∧ index < 8 then
    writeCommit { d with lowPins := setBit d.lowPins index state } bus
  else if 8 ≤ index ∧ index < 16 then
    writeCommit { d with highPins := setBit d.highPins (index - 8) state } bus
  else
    (Except.error (DevError.rangeError "WriteOutput" index), d, [])

/-- Go `(d *Dev) ReadOutput(index int) (bool, error)`: return the in-memory
latch bit; no bus transaction, no state change. -/
def ReadOutput (d : Dev) (index : Int) : Except DevError Bool × Dev × List Tx :=
  if 0 ≤ index ∧ index < 8 then
    (Except.ok (getBit d.lowPins index), d, [])
  else if 8 ≤ index ∧ index < 16 then
    (Except.ok (getBit d.highPins (index - 8)), d, [])
  else
    (Except.error (DevError.rangeError "ReadOutput" index), d, [])

/-- Go `(d *Dev) ReadInput(index int) (bool, error)`: read the two port
bytes from the device first, propagate a bus failure, then range-check the
index and return the requested bit of the freshly read pair. -/
def ReadInput (d : Dev) (index : Int) (bus : Bus) :
    Except DevError Bool × Dev × List Tx :=
  match readState bus with
  | (Except.error e, txs) => (Except.error (DevError.busError e), d, txs)
  | (Except.ok s, txs) =>
    if 0 ≤ index ∧ index < 8 then
      (Except.ok (getBit s.1 index), d, txs)
    else if 8 ≤ index ∧ index < 16 then
      (Except.ok (getBit s.2 (index - 8)), d, txs)
    else
      (Except.error (DevError.rangeError "ReadInput" index), d, txs)

/-- A bus on which every transaction succeeds; reads return `(0, 0)`. -/
def okBus : Bus :=
  { writeResult := fun _ => none, readResult := Except.ok (0, 0) }

/-- A bus on which every transaction fails with message "txfail". -/
def failBus : Bus :=
  { writeResult := fun _ => some "txfail", readResult := Except.error "txfail" }

/-- A bus whose read transactions return the bytes `[0x01, 0x80]`. -/
def readBus0180 : Bus :=
  { writeResult := fun _ => none, readResult := Except.ok (0x01, 0x80) }

end Pcf8575

namespace Pcf8575

theorem getBit_setBit_same : ∀ v, v < 256 → ∀ n, n < 8 → ∀ s : Bool,
    getBit (setBit v (Int.ofNat n) s) (Int.ofNat n) = s := by decide

theorem getBit_setBit_other : ∀ v, v < 256 → ∀ n, n < 8 → ∀ m, m < 8 → n ≠ m → ∀ s : Bool,
    getBit (setBit v (Int.ofNat n) s) (Int.ofNat m) = getBit v (Int.ofNat m) := by decide

theorem getBit_255 : ∀ n, n < 8 → getBit 255 (Int.ofNat n) = true := by decide

theorem getBit_setBit_same_int (v : Nat) (i : Int) (s : Bool)
    (hv : v < 256) (h0 : 0 ≤ i) (h8 : i < 8) : getBit (setBit v i s) i = s := by
  have hi : i = Int.ofNat i.toNat := (Int.toNat_of_nonneg h0).symm
  rw [hi]
  exact getBit_setBit_same v hv i.toNat (by omega) s

theorem getBit_setBit_other_int (v : Nat) (i j : Int) (s : Bool)
    (hv : v < 256) (hi0 : 0 ≤ i) (hi8 : i < 8) (hj0 : 0 ≤ j) (hj8 : j < 8) (hne : i ≠ j) :
    getBit (setBit v i s) j = getBit v j := by
  have h1 : i = Int.ofNat i.toNat := (Int.toNat_of_nonneg hi0).symm
  have h2 : j = Int.ofNat j.toNat := (Int.toNat_of_nonneg hj0).symm
  rw [h1, h2]
  exact getBit_setBit_other v hv i.toNat (by omega) j.toNat (by omega) (by omega) s

theorem getBit_255_int (i : Int) (h0 : 0 ≤ i) (h8 : i < 8) : getBit 255 i = true := by
  have hi : i = Int.ofNat i.toNat := (Int.toNat_of_nonneg h0).symm
  rw [hi]
  exact getBit_255 i.toNat (by omega)

theorem writeCommit_dev (d : Dev) (bus : Bus) : (writeCommit d bus).2.1 = d := by
  unfold writeCommit updateState
  cases bus.writeResult [d.lowPins, d.highPins] <;> rfl

theorem writeCommit_txs (d : Dev) (bus : Bus) :
    (writeCommit d bus).2.2 = [Tx.write [d.lowPins, d.highPins]] := by
  unfold writeCommit updateState
  cases bus.writeResult [d.lowPins, d.highPins] <;> rfl

theorem New_ok (bus : Bus) (hw : bus.writeResult [0xff, 0xff] = none) :
    New bus = (Except.ok ⟨0xff, 0xff⟩, [Tx.write [0xff, 0xff]]) := by
  unfold New updateState
  rw [hw]

theorem New_err (bus : Bus) (e : String) (hw : bus.writeResult [0xff, 0xff] = some e) :
    New bus = (Except.error (DevError.busError e), [Tx.write [0xff, 0xff]]) := by
  unfold New updateState
  rw [hw]

/-- C1: the claim fails on the code: `ReadInput` with the out-of-range
index 16 issues a bus read transaction rather than zero transactions. -/
theorem c1_counterexample :
    ¬ ((ReadInput ⟨255, 255⟩ 16 okBus).2.2 = ([] : List Tx)) := by decide

/-- C1 (amended): for every index not in [0,15], `WriteOutput` and
`ReadOutput` return a range error, issue zero bus transactions and leave
the latch bytes unmodified; `ReadInput` also returns a range error (when
its bus read succeeds) and leaves the latch bytes unmodified, but it
issues exactly one read transaction. -/
theorem c1_range_error (d : Dev) (bus : Bus) (index : Int) (state : Bool)
    (h : ¬ (0 ≤ index ∧ index < 16)) :
    WriteOutput d index state bus
      = (Except.error (DevError.rangeError "WriteOutput" index), d, [])
    ∧ ReadOutput d index = (Except.error (DevError.rangeError "ReadOutput" index), d, [])
    ∧ (ReadInput d index bus).2.1 = d
    ∧ (ReadInput d index bus).2.2 = [Tx.read]
    ∧ ∀ s, bus.readResult = Except.ok s →
        (ReadInput d index bus).1 = Except.error (DevError.rangeError "ReadInput" index) := by
  have h1 : ¬ (0 ≤ index ∧ index < 8) := by omega
  have h2 : ¬ (8 ≤ index ∧ index < 16) := by omega
  refine ⟨?_, ?_, ?_, ?_, ?_⟩
  · simp [WriteOutput, h1, h2]
  · simp [ReadOutput, h1, h2]
  · unfold ReadInput readState
    cases bus.readResult <;> simp [h1, h2]
  · unfold ReadInput readState
    cases bus.readResult <;> simp [h1, h2]
  · intro s hs
    unfold ReadInput readState
    rw [hs]
    simp [h1, h2]

/-- C1 witness: the amended property at index 16 on a healthy bus. -/
theorem c1_range_error_witness :
    WriteOutput ⟨255, 255⟩ 16 true okBus
      = (Except.error (DevError.rangeError "WriteOutput" 16), ⟨255, 255⟩, [])
    ∧ ReadOutput (⟨255, 255⟩ : Dev) 16
      = (Except.error (DevError.rangeError "ReadOutput" 16), ⟨255, 255⟩, [])
    ∧ (ReadInput ⟨255, 255⟩ 16 okBus).2.1 = ⟨255, 255⟩
    ∧ (ReadInput ⟨255, 255⟩ 16 okBus).2.2 = [Tx.read]
    ∧ ∀ s, okBus.readResult = Except.ok s →
        (ReadInput ⟨255, 255⟩ 16 okBus).1
          = Except.error (DevError.rangeError "ReadInput" 16) :=
  c1_range_error ⟨255, 255⟩ okBus 16 true (by decide)

end Pcf8575

namespace Pcf8575

/-- C2: the claim fails on the code: a `WriteOutput` whose write
transaction fails still changes the latch bytes, so they are updated
speculatively rather than only after a successful write transaction. -/
theorem c2_counterexample :
    (WriteOutput ⟨255, 255⟩ 0 false failBus).1 = Except.error (DevError.busError "txfail")
    ∧ (WriteOutput ⟨255, 255⟩ 0 false failBus).2.1 ≠ (⟨255, 255⟩ : Dev) := by decide

/-- C2 (amended): for every in-range index, the latch bytes after
`WriteOutput` equal the payload of the write transaction the call issued,
whether or not that transaction succeeded: they are updated before the
transaction and kept on failure, so after a successful write they equal
the last payload successfully written. -/
theorem c2_latch_payload (d : Dev) (bus : Bus) (index : Int) (state : Bool)
    (h : 0 ≤ index ∧ index < 16) :
    (WriteOutput d index state bus).2.2
      = [Tx.write [(WriteOutput d index state bus).2.1.lowPins,
                   (WriteOutput d index state bus).2.1.highPins]] := by
  unfold WriteOutput
  by_cases h1 : 0 ≤ index ∧ index < 8
  · rw [if_pos h1, writeCommit_txs, writeCommit_dev]
  · have h2 : 8 ≤ index ∧ index < 16 := by omega
    rw [if_neg h1, if_pos h2, writeCommit_txs, writeCommit_dev]

/-- C2 witness: the amended property at index 3 on a failing bus. -/
theorem c2_latch_payload_witness :
    (WriteOutput ⟨255, 255⟩ 3 false failBus).2.2
      = [Tx.write [(WriteOutput ⟨255, 255⟩ 3 false failBus).2.1.lowPins,
                   (WriteOutput ⟨255, 255⟩ 3 false failBus).2.1.highPins]] :=
  c2_latch_payload ⟨255, 255⟩ failBus 3 false (by decide)

/-- C3: the claim fails on the code: from latches `(0xFF, 0xFF)`,
`WriteOutput(10, false)` does not issue payload `[0xFF, 0xFD]`. -/
theorem c3_counterexample :
    ¬ ((WriteOutput ⟨0xff, 0xff⟩ 10 false okBus).2.2 = [Tx.write [0xff, 0xfd]]) := by
  decide

/-- C3 (amended): from latches `(0xFF, 0xFF)`, `WriteOutput(10, false)`
issues exactly one write transaction, and its payload is `[0xFF, 0xFB]`
(pin 10 is bit 2 of the high byte; `0xFB` = `0b11111011`). -/
theorem c3_write_payload (bus : Bus) :
    (WriteOutput ⟨0xff, 0xff⟩ 10 false bus).2.2 = [Tx.write [0xff, 0xfb]] := by
  have h1 : ¬ ((0 : Int) ≤ 10 ∧ (10 : Int) < 8) := by decide
  have h2 : (8 : Int) ≤ 10 ∧ (10 : Int) < 16 := by decide
  unfold WriteOutput
  rw [if_neg h1, if_pos h2, writeCommit_txs]
  decide

/-- C3 witness: the amended payload on a healthy bus. -/
theorem c3_write_payload_witness :
    (WriteOutput ⟨0xff, 0xff⟩ 10 false okBus).2.2 = [Tx.write [0xff, 0xfb]] :=
  c3_write_payload okBus

/-- C5: after a successful construction, every in-range `ReadOutput`
returns `true`, and exactly one write transaction, with payload
`[0xFF, 0xFF]`, was issued. -/
theorem c5_power_on (bus : Bus) (d : Dev) (hok : (New bus).1 = Except.ok d) :
    (∀ i : Int, 0 ≤ i ∧ i < 16 → (ReadOutput d i).1 = Except.ok true)
    ∧ (New bus).2 = [Tx.write [0xff, 0xff]] := by
  cases hw : bus.writeResult [0xff, 0xff] with
  | some e =>
    rw [New_err bus e hw] at hok
    exact absurd hok (by simp)
  | none =>
    have hd : d = (⟨0xff, 0xff⟩ : Dev) := by
      rw [New_ok bus hw] at hok
      exact (Except.ok.inj hok).symm
    subst hd
    constructor
    · intro i hi
      unfold ReadOutput
      by_cases h1 : 0 ≤ i ∧ i < 8
      · rw [if_pos h1]
        have hb := getBit_255_int i h1.1 h1.2
        simp [hb]
      · have h2 : 8 ≤ i ∧ i < 16 := by omega
        rw [if_neg h1, if_pos h2]
        have hb := getBit_255_int (i - 8) (by omega) (by omega)
        simp [hb]
    · rw [New_ok bus hw]

/-- C5 witness: construction over a healthy bus. -/
theorem c5_power_on_witness :
    (∀ i : Int, 0 ≤ i ∧ i < 16 → (ReadOutput (⟨255, 255⟩ : Dev) i).1 = Except.ok true)
    ∧ (New okBus).2 = [Tx.write [0xff, 0xff]] :=
  c5_power_on okBus ⟨255, 255⟩ (by decide)

/-- C6: when the bus read transaction yields bytes `[0x01, 0x80]`,
`ReadInput 0` returns `true`, `ReadInput 1` returns `false` and
`ReadInput 15` returns `true`, each call issuing exactly one fresh read
transaction and leaving the handle unchanged. -/
theorem c6_input_passthrough (d : Dev) (bus : Bus)
    (h : bus.readResult = Except.ok (0x01, 0x80)) :
    ReadInput d 0 bus = (Except.ok true, d, [Tx.read])
    ∧ ReadInput d 1 bus = (Except.ok false, d, [Tx.read])
    ∧ ReadInput d 15 bus = (Except.ok true, d, [Tx.read]) := by
  refine ⟨?_, ?_, ?_⟩ <;>
    · unfold ReadInput readState
      rw [h]
      norm_num
      decide

/-- C6 witness: the three reads on a bus returning `[0x01, 0x80]`. -/
theorem c6_input_passthrough_witness :
    ReadInput ⟨0, 0⟩ 0 readBus0180 = (Except.ok true, ⟨0, 0⟩, [Tx.read])
    ∧ ReadInput ⟨0, 0⟩ 1 readBus0180 = (Except.ok false, ⟨0, 0⟩, [Tx.read])
    ∧ ReadInput ⟨0, 0⟩ 15 readBus0180 = (Except.ok true, ⟨0, 0⟩, [Tx.read]) :=
  c6_input_passthrough ⟨0, 0⟩ readBus0180 rfl

/-- C7: if the initializing write transaction fails, `New` returns that
bus error and no handle. -/
theorem c7_construct_failure (bus : Bus) (e : String)
    (h : bus.writeResult [0xff, 0xff] = some e) :
    New bus = (Except.error (DevError.busError e), [Tx.write [0xff, 0xff]]) :=
  New_err bus e h

/-- C7 witness: construction over a bus that fails every write. -/
theorem c7_construct_failure_witness :
    New failBus = (Except.error (DevError.busError "txfail"), [Tx.write [0xff, 0xff]]) :=
  c7_construct_failure failBus "txfail" rfl

end Pcf8575

namespace Pcf8575

theorem writeCommit_err (d : Dev) (bus : Bus) (e : String)
    (h : bus.writeResult [d.lowPins, d.highPins] = some e) :
    (writeCommit d bus).1 = Except.error (DevError.busError e) := by
  unfold writeCommit updateState
  rw [h]

theorem WriteOutput_dev_low (d : Dev) (bus : Bus) (index : Int) (state : Bool)
    (h : 0 ≤ index ∧ index < 8) :
    (WriteOutput d index state bus).2.1
      = { d with lowPins := setBit d.lowPins index state } := by
  unfold WriteOutput
  rw [if_pos h, writeCommit_dev]

theorem WriteOutput_dev_high (d : Dev) (bus : Bus) (index : Int) (state : Bool)
    (h1 : ¬ (0 ≤ index ∧ index < 8)) (h2 : 8 ≤ index ∧ index < 16) :
    (WriteOutput d index state bus).2.1
      = { d with highPins := setBit d.highPins (index - 8) state } := by
  unfold WriteOutput
  rw [if_neg h1, if_pos h2, writeCommit_dev]

theorem ReadOutput_fst_low (d : Dev) (i : Int) (h : 0 ≤ i ∧ i < 8) :
    (ReadOutput d i).1 = Except.ok (getBit d.lowPins i) := by
  unfold ReadOutput
  rw [if_pos h]

theorem ReadOutput_fst_high (d : Dev) (i : Int)
    (h1 : ¬ (0 ≤ i ∧ i < 8)) (h2 : 8 ≤ i ∧ i < 16) :
    (ReadOutput d i).1 = Except.ok (getBit d.highPins (i - 8)) := by
  unfold ReadOutput
  rw [if_neg h1, if_pos h2]

theorem ReadOutput_dev (d : Dev) (index : Int) : (ReadOutput d index).2.1 = d := by
  unfold ReadOutput
  by_cases h1 : 0 ≤ index ∧ index < 8
  · rw [if_pos h1]
  · rw [if_neg h1]
    by_cases h2 : 8 ≤ index ∧ index < 16
    · rw [if_pos h2]
    · rw [if_neg h2]

theorem ReadOutput_txs (d : Dev) (index : Int) : (ReadOutput d index).2.2 = ([] : List Tx) := by
  unfold ReadOutput
  by_cases h1 : 0 ≤ index ∧ index < 8
  · rw [if_pos h1]
  · rw [if_neg h1]
    by_cases h2 : 8 ≤ index ∧ index < 16
    · rw [if_pos h2]
    · rw [if_neg h2]

theorem ReadInput_dev (d : Dev) (index : Int) (bus : Bus) :
    (ReadInput d index bus).2.1 = d := by
  unfold ReadInput readState
  cases bus.readResult with
  | error e => rfl
  | ok s =>
    by_cases h1 : 0 ≤ index ∧ index < 8
    · simp [h1]
    · by_cases h2 : 8 ≤ index ∧ index < 16
      · simp [h1, h2]
      · simp [h1, h2]

/-- C4: for every in-range index and state, after a successful
`WriteOutput index state` the subsequent `ReadOutput index` returns
`state`, and `ReadOutput` at every other in-range index returns the same
value as before the write. -/
theorem c4_write_read_roundtrip (d : Dev) (bus : Bus) (index : Int) (state : Bool)
    (hl : d.lowPins < 256) (hh : d.highPins < 256)
    (hidx : 0 ≤ index ∧ index < 16)
    (hok : (WriteOutput d index state bus).1 = Except.ok ()) :
    (ReadOutput (WriteOutput d index state bus).2.1 index).1 = Except.ok state
    ∧ ∀ j : Int, (0 ≤ j ∧ j < 16) → j ≠ index →
        (ReadOutput (WriteOutput d index state bus).2.1 j).1 = (ReadOutput d j).1 := by
  by_cases h1 : 0 ≤ index ∧ index < 8
  · rw [WriteOutput_dev_low d bus index state h1]
    constructor
    · rw [ReadOutput_fst_low _ index h1]
      have hb := getBit_setBit_same_int d.lowPins index state hl h1.1 h1.2
      simp [hb]
    · intro j hj hne
      by_cases hj1 : 0 ≤ j ∧ j < 8
      · rw [ReadOutput_fst_low _ j hj1, ReadOutput_fst_low d j hj1]
        have hb := getBit_setBit_other_int d.lowPins index j state hl h1.1 h1.2
          hj1.1 hj1.2 (by omega)
        simp [hb]
      · have hj2 : 8 ≤ j ∧ j < 16 := by omega
        rw [ReadOutput_fst_high _ j hj1 hj2, ReadOutput_fst_high d j hj1 hj2]
  · have h2 : 8 ≤ index ∧ index < 16 := by omega
    rw [WriteOutput_dev_high d bus index state h1 h2]
    constructor
    · rw [ReadOutput_fst_high _ index h1 h2]
      have hb := getBit_setBit_same_int d.highPins (index - 8) state hh (by omega) (by omega)
      simp [hb]
    · intro j hj hne
      by_cases hj1 : 0 ≤ j ∧ j < 8
      · rw [ReadOutput_fst_low _ j hj1, ReadOutput_fst_low d j hj1]
      · have hj2 : 8 ≤ j ∧ j < 16 := by omega
        rw [ReadOutput_fst_high _ j hj1 hj2, ReadOutput_fst_high d j hj1 hj2]
        have hb := getBit_setBit_other_int d.highPins (index - 8) (j - 8) state hh
          (by omega) (by omega) (by omega) (by omega) (by omega)
        simp [hb]

/-- C4 witness: writing pin 10 low from all-high latches on a healthy bus. -/
theorem c4_write_read_roundtrip_witness :
    (ReadOutput (WriteOutput ⟨255, 255⟩ 10 false okBus).2.1 10).1 = Except.ok false
    ∧ ∀ j : Int, (0 ≤ j ∧ j < 16) → j ≠ 10 →
        (ReadOutput (WriteOutput ⟨255, 255⟩ 10 false okBus).2.1 j).1
          = (ReadOutput (⟨255, 255⟩ : Dev) j).1 :=
  c4_write_read_roundtrip ⟨255, 255⟩ okBus 10 false (by decide) (by decide)
    (by decide) (by decide)

/-- C8: if the write transaction inside an in-range `WriteOutput` fails,
the call returns that bus error, yet the latch bit for the index holds the
attempted new value (no rollback). -/
theorem c8_no_rollback (d : Dev) (bus : Bus) (index : Int) (state : Bool) (e : String)
    (hl : d.lowPins < 256) (hh : d.highPins < 256)
    (hidx : 0 ≤ index ∧ index < 16)
    (hfail : ∀ p, bus.writeResult p = some e) :
    (WriteOutput d index state bus).1 = Except.error (DevError.busError e)
    ∧ (ReadOutput (WriteOutput d index state bus).2.1 index).1 = Except.ok state := by
  by_cases h1 : 0 ≤ index ∧ index < 8
  · constructor
    · unfold WriteOutput
      rw [if_pos h1]
      exact writeCommit_err _ bus e (hfail _)
    · rw [WriteOutput_dev_low d bus index state h1, ReadOutput_fst_low _ index h1]
      have hb := getBit_setBit_same_int d.lowPins index state hl h1.1 h1.2
      simp [hb]
  · have h2 : 8 ≤ index ∧ index < 16 := by omega
    constructor
    · unfold WriteOutput
      rw [if_neg h1, if_pos h2]
      exact writeCommit_err _ bus e (hfail _)
    · rw [WriteOutput_dev_high d bus index state h1 h2, ReadOutput_fst_high _ index h1 h2]
      have hb := getBit_setBit_same_int d.highPins (index - 8) state hh (by omega) (by omega)
      simp [hb]

/-- C8 witness: writing pin 3 low on a bus that fails every transaction. -/
theorem c8_no_rollback_witness :
    (WriteOutput ⟨255, 255⟩ 3 false failBus).1 = Except.error (DevError.busError "txfail")
    ∧ (ReadOutput (WriteOutput ⟨255, 255⟩ 3 false failBus).2.1 3).1 = Except.ok false :=
  c8_no_rollback ⟨255, 255⟩ failBus 3 false "txfail" (by decide) (by decide) (by decide)
    (fun _ => rfl)

/-- C9: for every index, `ReadOutput` and `ReadInput` leave the latch
bytes unchanged, and `ReadOutput` issues no bus transaction. -/
theorem c9_reads_frame (d : Dev) (index : Int) (bus : Bus) :
    (ReadOutput d index).2.1 = d
    ∧ (ReadOutput d index).2.2 = ([] : List Tx)
    ∧ (ReadInput d index bus).2.1 = d :=
  ⟨ReadOutput_dev d index, ReadOutput_txs d index, ReadInput_dev d index bus⟩

/-- C10: `ReadInput` issues its read transaction before validating the
index: when the bus read fails, every index — in range or not — gets the
bus error back, with exactly one read transaction issued. -/
theorem c10_read_error_masks_range (d : Dev) (index : Int) (bus : Bus) (e : String)
    (h : bus.readResult = Except.error e) :
    ReadInput d index bus = (Except.error (DevError.busError e), d, [Tx.read]) := by
  unfold ReadInput readState
  rw [h]

/-- C10 witness: a failing read with the out-of-range index 99. -/
theorem c10_read_error_masks_range_witness :
    ReadInput ⟨255, 255⟩ 99 failBus
      = (Except.error (DevError.busError "txfail"), ⟨255, 255⟩, [Tx.read]) :=
  c10_read_error_masks_range ⟨255, 255⟩ 99 failBus "txfail" rfl

end Pcf8575
